import Mathlib

/-
Verification of the VoiceApp signaling system.

The development shallowly embeds the two signaling-server variants of the
repository (server/signalingServer.js, a raw-websocket relay, and
server/server.js, a socket.io relay), the client negotiation logic of
src/hooks/useWebRTC.ts, the ICE-credential fetcher of
src/services/xirsysService.ts and the reconnecting websocket channel of
the realSignalingService variant.  JS Maps become association lists, JS
Sets become duplicate-free lists, JSON frames become a record with
optional fields, and each message handler becomes a pure function from
server state and event to new state plus the list of frames it sends.
-/

set_option linter.unusedVariables false

/-- Opaque payload blob (an SDP description or ICE candidate).  The relay
never inspects it, so it is modelled as an arbitrary string. -/
abbrev Payload := String

/-- A JSON-style outbound frame; a field that is absent from the concrete
JSON object is `none`. -/
structure OutMsg where
  type : String
  roomId : Option String := none
  userId : Option String := none
  isHost : Option Bool := none
  message : Option String := none
  data : Option Payload := none
  fromUser : Option String := none
deriving DecidableEq

/-- JS `Map.get`: the first binding of the key, if any. -/
def alookup {K V : Type} [DecidableEq K] : List (K × V) → K → Option V
  | [], _ => none
  | (k, v) :: rest, key => if k = key then some v else alookup rest key

/-- JS `Map.set`: replace the binding in place if present, else append. -/
def aset {K V : Type} [DecidableEq K] : List (K × V) → K → V → List (K × V)
  | [], key, val => [(key, val)]
  | (k, v) :: rest, key, val =>
      if k = key then (key, val) :: rest else (k, v) :: aset rest key val

/-- JS `Map.delete` (maps never hold a key twice). -/
def adel {K V : Type} [DecidableEq K] (m : List (K × V)) (key : K) : List (K × V) :=
  m.filter fun p => decide (p.1 ≠ key)

/-- JS `Set.add`. -/
def setAdd {α : Type} [DecidableEq α] (s : List α) (x : α) : List α :=
  if x ∈ s then s else s ++ [x]

/-- JS `Set.delete` (sets never hold duplicates, so erasing the first
occurrence is exact). -/
def setDel {α : Type} [DecidableEq α] : List α → α → List α
  | [], _ => []
  | y :: ys, x => if y = x then ys else y :: setDel ys x

theorem alookup_aset_self {K V : Type} [DecidableEq K] (m : List (K × V)) (k : K) (v : V) :
    alookup (aset m k v) k = some v := by
  induction m with
  | nil => simp [aset, alookup]
  | cons p rest ih =>
    obtain ⟨k1, v1⟩ := p
    by_cases h : k1 = k
    · simp [aset, h, alookup]
    · simp [aset, h, alookup, ih]

theorem alookup_aset_ne {K V : Type} [DecidableEq K] (m : List (K × V)) (k k' : K) (v : V)
    (h : k' ≠ k) : alookup (aset m k v) k' = alookup m k' := by
  induction m with
  | nil => simp [aset, alookup, Ne.symm h]
  | cons p rest ih =>
    obtain ⟨k1, v1⟩ := p
    by_cases hk : k1 = k
    · subst hk
      simp [aset, alookup, Ne.symm h]
    · simp only [aset, if_neg hk, alookup]
      by_cases hk' : k1 = k'
      · simp [hk']
      · simp [hk', ih]

theorem mem_aset {K V : Type} [DecidableEq K] (m : List (K × V)) (k : K) (v : V)
    (p : K × V) (hp : p ∈ aset m k v) : p = (k, v) ∨ p ∈ m := by
  induction m with
  | nil => simpa [aset] using hp
  | cons q rest ih =>
    obtain ⟨k1, v1⟩ := q
    by_cases h : k1 = k
    · simp only [aset, if_pos h, List.mem_cons] at hp
      rcases hp with hp | hp
      · exact Or.inl hp
      · exact Or.inr (List.mem_cons_of_mem _ hp)
    · simp only [aset, if_neg h, List.mem_cons] at hp
      rcases hp with hp | hp
      · exact Or.inr (by simp [hp])
      · rcases ih hp with h1 | h1
        · exact Or.inl h1
        · exact Or.inr (List.mem_cons_of_mem _ h1)

theorem mem_adel {K V : Type} [DecidableEq K] (m : List (K × V)) (k : K)
    (p : K × V) (hp : p ∈ adel m k) : p ∈ m := by
  exact (List.mem_filter.mp hp).1

theorem alookup_adel_self {K V : Type} [DecidableEq K] (m : List (K × V)) (k : K) :
    alookup (adel m k) k = none := by
  induction m with
  | nil => simp [adel, alookup]
  | cons p rest ih =>
    obtain ⟨k1, v1⟩ := p
    by_cases h : k1 = k
    · simpa [adel, h] using ih
    · simpa [adel, alookup, h] using ih

theorem alookup_adel_ne {K V : Type} [DecidableEq K] (m : List (K × V)) (k k' : K)
    (h : k' ≠ k) : alookup (adel m k) k' = alookup m k' := by
  induction m with
  | nil => simp [adel, alookup]
  | cons p rest ih =>
    obtain ⟨k1, v1⟩ := p
    by_cases hk : k1 = k
    · subst hk
      have hne : ¬ k1 = k' := fun hh => h (hh ▸ rfl)
      simp only [adel, ne_eq, decide_not] at ih
      simp [adel, List.filter_cons, alookup, hne, ih]
    · by_cases hk' : k1 = k'
      · subst hk'
        simp only [adel, ne_eq, decide_not] at ih
        simp [adel, List.filter_cons, alookup, hk, ih]
      · simp only [adel, ne_eq, decide_not] at ih
        simp [adel, List.filter_cons, alookup, hk, hk', ih]

theorem alookup_mem {K V : Type} [DecidableEq K] (m : List (K × V)) (k : K) (v : V)
    (h : alookup m k = some v) : (k, v) ∈ m := by
  induction m with
  | nil => simp [alookup] at h
  | cons p rest ih =>
    obtain ⟨k1, v1⟩ := p
    by_cases hk : k1 = k
    · subst hk
      have h2 : v1 = v := by simpa [alookup] using h
      subst h2
      exact List.mem_cons_self _ _
    · simp only [alookup, if_neg hk] at h
      exact List.mem_cons_of_mem _ (ih h)

theorem setAdd_length_le {α : Type} [DecidableEq α] (s : List α) (x : α) :
    (setAdd s x).length ≤ s.length + 1 := by
  by_cases h : x ∈ s
  · simp [setAdd, h]
  · simp [setAdd, h]

theorem setAdd_not_mem {α : Type} [DecidableEq α] (s : List α) (x : α) (h : x ∉ s) :
    setAdd s x = s ++ [x] := by
  simp [setAdd, h]

theorem setDel_length_le {α : Type} [DecidableEq α] (s : List α) (x : α) :
    (setDel s x).length ≤ s.length := by
  induction s with
  | nil => simp [setDel]
  | cons y ys ih =>
    by_cases h : y = x
    · simp [setDel, h]
    · simp only [setDel, if_neg h, List.length_cons]
      omega

theorem setDel_length_mem {α : Type} [DecidableEq α] (s : List α) (x : α) (h : x ∈ s) :
    (setDel s x).length = s.length - 1 := by
  induction s with
  | nil => simp at h
  | cons y ys ih =>
    by_cases hy : y = x
    · simp [setDel, hy]
    · have hmem : x ∈ ys := by
        rcases List.mem_cons.mp h with h1 | h1
        · exact absurd h1.symm hy
        · exact h1
      have hlen : 1 ≤ ys.length := List.length_pos.mpr (List.ne_nil_of_mem hmem)
      simp only [setDel, if_neg hy, List.length_cons, ih hmem]
      omega

namespace WsServer

/-- Per-connection registration stored in the `connections` map
(signalingServer.js line 82). -/
structure Conn where
  userId : String
  roomId : String
deriving DecidableEq

/-- State of the raw-websocket relay: `rooms` maps a room id to the set of
user ids occupying it, `connections` maps a socket handle (modelled as a
natural number) to its registration (signalingServer.js lines 18-19). -/
structure State where
  rooms : List (String × List String)
  connections : List (Nat × Conn)
deriving DecidableEq

/-- signalingServer.js `broadcastToRoom` (lines 179-190): send `msg` to
every connection registered in `roomId` whose user id differs from
`excludeUserId`; a no-op when the room is not in the registry. -/
def broadcastToRoom (st : State) (roomId : String) (msg : OutMsg) (excludeUserId : String) :
    List (Nat × OutMsg) :=
  match alookup st.rooms roomId with
  | none => []
  | some _ =>
      (st.connections.filter fun q =>
        decide (q.2.roomId = roomId ∧ q.2.userId ≠ excludeUserId)).map fun q => (q.1, msg)

/-- signalingServer.js `handleJoinRoom` (lines 63-101): lazily create the
room, reject with a type `error` frame when it already has two occupants,
otherwise register the user, confirm with `joined-room` (note: no isHost
field in this variant) and, when the room reaches two occupants, notify
the other occupant with `user-joined`. -/
def handleJoinRoom (st : State) (ws : Nat) (roomId userId : String) :
    State × List (Nat × OutMsg) :=
  let rooms1 := match alookup st.rooms roomId with
    | none => aset st.rooms roomId []
    | some _ => st.rooms
  let room := (alookup rooms1 roomId).getD []
  if 2 ≤ room.length then
    ({ st with rooms := rooms1 },
     [(ws, { type := "error", message := some "Salle pleine" })])
  else
    let room' := setAdd room userId
    let st' : State :=
      { rooms := aset rooms1 roomId room',
        connections := aset st.connections ws ⟨userId, roomId⟩ }
    let joined : Nat × OutMsg :=
      (ws, { type := "joined-room", roomId := some roomId, userId := some userId })
    let notify :=
      if room'.length = 2 then
        broadcastToRoom st' roomId
          { type := "user-joined", roomId := some roomId, userId := some userId } userId
      else []
    (st', joined :: notify)

/-- signalingServer.js `handleLeaveRoom` (lines 103-129): drop the request
when the socket has no registration; otherwise remove the user from its
room (if the room exists), broadcast `user-left` to the other occupants,
delete the room when it became empty, and finally forget the connection. -/
def handleLeaveRoom (st : State) (ws : Nat) : State × List (Nat × OutMsg) :=
  match alookup st.connections ws with
  | none => (st, [])
  | some conn =>
    match alookup st.rooms conn.roomId with
    | none => ({ st with connections := adel st.connections ws }, [])
    | some room =>
      let room' := setDel room conn.userId
      let stMid : State := { st with rooms := aset st.rooms conn.roomId room' }
      let sends := broadcastToRoom stMid conn.roomId
        { type := "user-left", roomId := some conn.roomId, userId := some conn.userId }
        conn.userId
      let rooms2 := if room'.length = 0 then adel stMid.rooms conn.roomId else stMid.rooms
      ({ rooms := rooms2, connections := adel st.connections ws }, sends)

/-- signalingServer.js `handleOffer` (lines 131-143): silently dropped when
the socket has no registration; otherwise the offer payload is forwarded
unchanged to the other occupants of the room of the sender. -/
def handleOffer (st : State) (ws : Nat) (offer : Payload) : State × List (Nat × OutMsg) :=
  match alookup st.connections ws with
  | none => (st, [])
  | some conn =>
    (st, broadcastToRoom st conn.roomId
      { type := "offer", data := some offer, roomId := some conn.roomId } conn.userId)

/-- signalingServer.js `handleAnswer` (lines 145-157). -/
def handleAnswer (st : State) (ws : Nat) (answer : Payload) : State × List (Nat × OutMsg) :=
  match alookup st.connections ws with
  | none => (st, [])
  | some conn =>
    (st, broadcastToRoom st conn.roomId
      { type := "answer", data := some answer, roomId := some conn.roomId } conn.userId)

/-- signalingServer.js `handleIceCandidate` (lines 159-170). -/
def handleIceCandidate (st : State) (ws : Nat) (candidate : Payload) :
    State × List (Nat × OutMsg) :=
  match alookup st.connections ws with
  | none => (st, [])
  | some conn =>
    (st, broadcastToRoom st conn.roomId
      { type := "ice-candidate", data := some candidate, roomId := some conn.roomId }
      conn.userId)

/-- signalingServer.js `handleDisconnection` (lines 172-177): a transport
close is an implicit leave for a registered connection. -/
def handleDisconnection (st : State) (ws : Nat) : State × List (Nat × OutMsg) :=
  match alookup st.connections ws with
  | some _ => handleLeaveRoom st ws
  | none => (st, [])

/-- One inbound event of the ws relay (message dispatch of
signalingServer.js lines 29-47 plus the close handler). -/
inductive Event
  | joinRoom (ws : Nat) (roomId userId : String)
  | leaveRoom (ws : Nat)
  | offer (ws : Nat) (payload : Payload)
  | answer (ws : Nat) (payload : Payload)
  | iceCandidate (ws : Nat) (payload : Payload)
  | disconnect (ws : Nat)
deriving DecidableEq

/-- Event dispatch of the ws relay. -/
def step (st : State) : Event → State × List (Nat × OutMsg)
  | .joinRoom ws r u => handleJoinRoom st ws r u
  | .leaveRoom ws => handleLeaveRoom st ws
  | .offer ws p => handleOffer st ws p
  | .answer ws p => handleAnswer st ws p
  | .iceCandidate ws p => handleIceCandidate st ws p
  | .disconnect ws => handleDisconnection st ws

/-- Two-party room invariant: every room of the registry holds at most two
participants. -/
def Bounded (st : State) : Prop := ∀ p ∈ st.rooms, p.2.length ≤ 2

theorem ws_bounded_handleJoinRoom (st : State) (ws : Nat) (roomId userId : String)
    (hb : Bounded st) : Bounded (handleJoinRoom st ws roomId userId).1 := by
  unfold handleJoinRoom
  have hrooms1 : Bounded { st with
      rooms := match alookup st.rooms roomId with
        | none => aset st.rooms roomId []
        | some _ => st.rooms } := by
    cases hcase : alookup st.rooms roomId with
    | none =>
      intro p hp
      rcases mem_aset _ _ _ _ (by simpa [hcase] using hp) with h1 | h1
      · simp [h1]
      · exact hb p h1
    | some room => simpa [hcase] using hb
  cases hcase : alookup st.rooms roomId with
  | none =>
    simp only [hcase]
    have hroom : alookup (aset st.rooms roomId []) roomId = some [] :=
      alookup_aset_self _ _ _
    by_cases hfull : 2 ≤ ((alookup (aset st.rooms roomId []) roomId).getD []).length
    · simp only [if_pos hfull]
      intro p hp
      rcases mem_aset _ _ _ _ hp with h1 | h1
      · simp [h1]
      · exact hb p h1
    · simp only [if_neg hfull]
      intro p hp
      rcases mem_aset _ _ _ _ hp with h1 | h1
      · subst h1
        simp only [hroom, Option.getD_some]
        have h2 : (setAdd ([] : List String) userId).length ≤ 1 := by
          simpa using setAdd_length_le ([] : List String) userId
        show (setAdd [] userId).length ≤ 2
        omega
      · rcases mem_aset _ _ _ _ h1 with h2 | h2
        · simp [h2]
        · exact hb p h2
  | some room =>
    simp only [hcase, Option.getD_some]
    by_cases hfull : 2 ≤ room.length
    · simp only [if_pos hfull]
      exact hb
    · simp only [if_neg hfull]
      intro p hp
      rcases mem_aset _ _ _ _ hp with h1 | h1
      · subst h1
        have h2 := setAdd_length_le room userId
        show (setAdd room userId).length ≤ 2
        omega
      · exact hb p h1

theorem ws_bounded_handleLeaveRoom (st : State) (ws : Nat) (hb : Bounded st) :
    Bounded (handleLeaveRoom st ws).1 := by
  unfold handleLeaveRoom
  cases hconn : alookup st.connections ws with
  | none => simpa [hconn] using hb
  | some conn =>
    cases hroom : alookup st.rooms conn.roomId with
    | none => simpa [hconn, hroom] using hb
    | some room =>
      simp only [hconn, hroom]
      have hroomLe : room.length ≤ 2 := hb _ (alookup_mem _ _ _ hroom)
      have hroomLe' : (setDel room conn.userId).length ≤ 2 :=
        le_trans (setDel_length_le _ _) hroomLe
      by_cases hz : (setDel room conn.userId).length = 0
      · simp only [if_pos hz]
        intro p hp
        have hp1 := mem_adel _ _ _ hp
        rcases mem_aset _ _ _ _ hp1 with h1 | h1
        · subst h1
          exact hroomLe'
        · exact hb p h1
      · simp only [if_neg hz]
        intro p hp
        rcases mem_aset _ _ _ _ hp with h1 | h1
        · subst h1
          exact hroomLe'
        · exact hb p h1

theorem ws_bounded_step (st : State) (e : Event) (hb : Bounded st) :
    Bounded (step st e).1 := by
  cases e with
  | joinRoom ws r u => exact ws_bounded_handleJoinRoom st ws r u hb
  | leaveRoom ws => exact ws_bounded_handleLeaveRoom st ws hb
  | offer ws p =>
    cases hconn : alookup st.connections ws with
    | none => simpa [step, handleOffer, hconn] using hb
    | some conn => simpa [step, handleOffer, hconn] using hb
  | answer ws p =>
    cases hconn : alookup st.connections ws with
    | none => simpa [step, handleAnswer, hconn] using hb
    | some conn => simpa [step, handleAnswer, hconn] using hb
  | iceCandidate ws p =>
    cases hconn : alookup st.connections ws with
    | none => simpa [step, handleIceCandidate, hconn] using hb
    | some conn => simpa [step, handleIceCandidate, hconn] using hb
  | disconnect ws =>
    cases hconn : alookup st.connections ws with
    | none => simpa [step, handleDisconnection, hconn] using hb
    | some conn =>
      have := ws_bounded_handleLeaveRoom st ws hb
      simpa [step, handleDisconnection, hconn] using this

end WsServer

namespace IoServer

/-- The mutable fields the socket.io server stores on each socket object
(server.js lines 58-59); both are absent until the first join. -/
structure SockData where
  userId : Option String := none
  roomId : Option String := none
deriving DecidableEq

/-- State of the socket.io relay: the application `rooms` map (room id →
set of socket ids, server.js line 22), the adapter membership used by
`socket.to(roomId)` (maintained by `socket.join` and `socket.leave`), and
the per-socket data. -/
structure State where
  rooms : List (String × List Nat)
  member : List (String × List Nat)
  socks : List (Nat × SockData)
deriving DecidableEq

/-- `socket.to(roomId).emit(msg)`: deliver `msg` to every adapter member
of `roomId` other than the sender. -/
def emitTo (st : State) (sid : Nat) (roomId : String) (msg : OutMsg) : List (Nat × OutMsg) :=
  (((alookup st.member roomId).getD []).filter fun s => decide (s ≠ sid)).map
    fun s => (s, msg)

/-- server.js `join-room` handler (lines 38-71): lazily create the room,
reject with `join-error` when it already has two occupants, otherwise add
the socket, join the adapter room, record userId/roomId on the socket,
confirm with `joined-room` carrying `isHost := (room.size === 1)`, and on
the second join notify the other occupant with `user-joined`. -/
def handleJoinRoom (st : State) (sid : Nat) (roomId userId : String) :
    State × List (Nat × OutMsg) :=
  let rooms1 := match alookup st.rooms roomId with
    | none => aset st.rooms roomId []
    | some _ => st.rooms
  let room := (alookup rooms1 roomId).getD []
  if 2 ≤ room.length then
    ({ st with rooms := rooms1 },
     [(sid, { type := "join-error", message := some "Salle pleine" })])
  else
    let room' := setAdd room sid
    let st' : State :=
      { rooms := aset rooms1 roomId room',
        member := aset st.member roomId (setAdd ((alookup st.member roomId).getD []) sid),
        socks := aset st.socks sid ⟨some userId, some roomId⟩ }
    let joined : Nat × OutMsg :=
      (sid, { type := "joined-room", roomId := some roomId, userId := some userId,
              isHost := some (decide (room'.length = 1)) })
    let notify :=
      if room'.length = 2 then
        emitTo st' sid roomId { type := "user-joined", userId := some userId }
      else []
    (st', joined :: notify)

/-- server.js `offer` handler (lines 74-78): no registration guard; the
payload is forwarded unchanged to the adapter room named in the message,
tagged with the stored userId of the sender. -/
def handleOffer (st : State) (sid : Nat) (roomId : String) (offer : Payload) :
    State × List (Nat × OutMsg) :=
  let fromU := ((alookup st.socks sid).getD {}).userId
  (st, emitTo st sid roomId { type := "offer", data := some offer, fromUser := fromU })

/-- server.js `answer` handler (lines 81-85). -/
def handleAnswer (st : State) (sid : Nat) (roomId : String) (answer : Payload) :
    State × List (Nat × OutMsg) :=
  let fromU := ((alookup st.socks sid).getD {}).userId
  (st, emitTo st sid roomId { type := "answer", data := some answer, fromUser := fromU })

/-- server.js `ice-candidate` handler (lines 88-92). -/
def handleIceCandidate (st : State) (sid : Nat) (roomId : String) (candidate : Payload) :
    State × List (Nat × OutMsg) :=
  let fromU := ((alookup st.socks sid).getD {}).userId
  (st, emitTo st sid roomId { type := "ice-candidate", data := some candidate, fromUser := fromU })

/-- server.js `disconnect` handler (lines 95-113): when the socket had a
room, remove it from that room, emit `user-left` to the other adapter
members, and delete the room only if it became empty.  Afterwards the
socket itself disappears (socket.io removes it from every adapter room and
the socket object is gone). -/
def handleDisconnect (st : State) (sid : Nat) : State × List (Nat × OutMsg) :=
  let sock := (alookup st.socks sid).getD {}
  let upd :=
    match sock.roomId with
    | none => (st.rooms, ([] : List (Nat × OutMsg)))
    | some rid =>
      match alookup st.rooms rid with
      | none => (st.rooms, [])
      | some room =>
        let room' := setDel room sid
        let sends := emitTo st sid rid { type := "user-left", userId := sock.userId }
        (if room'.length = 0 then adel st.rooms rid else aset st.rooms rid room', sends)
  ({ rooms := upd.1,
     member := st.member.map fun p => (p.1, setDel p.2 sid),
     socks := adel st.socks sid }, upd.2)

/-- server.js `leave-room` handler (lines 116-129): like disconnect but
the socket survives; it leaves the adapter room and, notably, its stored
`roomId` is not cleared. -/
def handleLeaveRoom (st : State) (sid : Nat) : State × List (Nat × OutMsg) :=
  let sock := (alookup st.socks sid).getD {}
  match sock.roomId with
  | none => (st, [])
  | some rid =>
    match alookup st.rooms rid with
    | none => (st, [])
    | some room =>
      let room' := setDel room sid
      let sends := emitTo st sid rid { type := "user-left", userId := sock.userId }
      let member' := aset st.member rid (setDel ((alookup st.member rid).getD []) sid)
      let rooms' := if room'.length = 0 then adel st.rooms rid else aset st.rooms rid room'
      ({ rooms := rooms', member := member', socks := st.socks }, sends)

/-- One inbound event of the socket.io relay. -/
inductive Event
  | joinRoom (sid : Nat) (roomId userId : String)
  | offer (sid : Nat) (roomId : String) (payload : Payload)
  | answer (sid : Nat) (roomId : String) (payload : Payload)
  | iceCandidate (sid : Nat) (roomId : String) (payload : Payload)
  | leaveRoom (sid : Nat)
  | disconnect (sid : Nat)
deriving DecidableEq

/-- Event dispatch of the socket.io relay. -/
def step (st : State) : Event → State × List (Nat × OutMsg)
  | .joinRoom sid r u => handleJoinRoom st sid r u
  | .offer sid r p => handleOffer st sid r p
  | .answer sid r p => handleAnswer st sid r p
  | .iceCandidate sid r p => handleIceCandidate st sid r p
  | .leaveRoom sid => handleLeaveRoom st sid
  | .disconnect sid => handleDisconnect st sid

/-- Two-party room invariant for the socket.io registry. -/
def Bounded (st : State) : Prop := ∀ p ∈ st.rooms, p.2.length ≤ 2

theorem io_bounded_handleJoinRoom (st : State) (sid : Nat) (roomId userId : String)
    (hb : Bounded st) : Bounded (handleJoinRoom st sid roomId userId).1 := by
  unfold handleJoinRoom
  cases hcase : alookup st.rooms roomId with
  | none =>
    simp only [hcase]
    have hroom : alookup (aset st.rooms roomId []) roomId = some [] :=
      alookup_aset_self _ _ _
    by_cases hfull : 2 ≤ ((alookup (aset st.rooms roomId []) roomId).getD []).length
    · simp only [if_pos hfull]
      intro p hp
      rcases mem_aset _ _ _ _ hp with h1 | h1
      · simp [h1]
      · exact hb p h1
    · simp only [if_neg hfull]
      intro p hp
      rcases mem_aset _ _ _ _ hp with h1 | h1
      · subst h1
        simp only [hroom, Option.getD_some]
        have h2 : (setAdd ([] : List Nat) sid).length ≤ 1 := by
          simpa using setAdd_length_le ([] : List Nat) sid
        show (setAdd [] sid).length ≤ 2
        omega
      · rcases mem_aset _ _ _ _ h1 with h2 | h2
        · simp [h2]
        · exact hb p h2
  | some room =>
    simp only [hcase, Option.getD_some]
    by_cases hfull : 2 ≤ room.length
    · simp only [if_pos hfull]
      exact hb
    · simp only [if_neg hfull]
      intro p hp
      rcases mem_aset _ _ _ _ hp with h1 | h1
      · subst h1
        have h2 := setAdd_length_le room sid
        show (setAdd room sid).length ≤ 2
        omega
      · exact hb p h1

theorem io_bounded_handleDisconnect (st : State) (sid : Nat) (hb : Bounded st) :
    Bounded (handleDisconnect st sid).1 := by
  unfold handleDisconnect
  cases hsock : ((alookup st.socks sid).getD {}).roomId with
  | none => simpa [hsock] using hb
  | some rid =>
    cases hroom : alookup st.rooms rid with
    | none => simpa [hsock, hroom] using hb
    | some room =>
      simp only [hsock, hroom]
      have hroomLe : room.length ≤ 2 := hb _ (alookup_mem _ _ _ hroom)
      have hroomLe' : (setDel room sid).length ≤ 2 :=
        le_trans (setDel_length_le _ _) hroomLe
      by_cases hz : (setDel room sid).length = 0
      · simp only [if_pos hz]
        intro p hp
        exact hb p (mem_adel _ _ _ hp)
      · simp only [if_neg hz]
        intro p hp
        rcases mem_aset _ _ _ _ hp with h1 | h1
        · subst h1
          exact hroomLe'
        · exact hb p h1

theorem io_bounded_handleLeaveRoom (st : State) (sid : Nat) (hb : Bounded st) :
    Bounded (handleLeaveRoom st sid).1 := by
  unfold handleLeaveRoom
  cases hsock : ((alookup st.socks sid).getD {}).roomId with
  | none => simpa [hsock] using hb
  | some rid =>
    cases hroom : alookup st.rooms rid with
    | none => simpa [hsock, hroom] using hb
    | some room =>
      simp only [hsock, hroom]
      have hroomLe : room.length ≤ 2 := hb _ (alookup_mem _ _ _ hroom)
      have hroomLe' : (setDel room sid).length ≤ 2 :=
        le_trans (setDel_length_le _ _) hroomLe
      by_cases hz : (setDel room sid).length = 0
      · simp only [if_pos hz]
        intro p hp
        exact hb p (mem_adel _ _ _ hp)
      · simp only [if_neg hz]
        intro p hp
        rcases mem_aset _ _ _ _ hp with h1 | h1
        · subst h1
          exact hroomLe'
        · exact hb p h1

theorem io_bounded_step (st : State) (e : Event) (hb : Bounded st) :
    Bounded (step st e).1 := by
  cases e with
  | joinRoom sid r u => exact io_bounded_handleJoinRoom st sid r u hb
  | offer sid r p => simpa [step, handleOffer] using hb
  | answer sid r p => simpa [step, handleAnswer] using hb
  | iceCandidate sid r p => simpa [step, handleIceCandidate] using hb
  | leaveRoom sid => exact io_bounded_handleLeaveRoom st sid hb
  | disconnect sid => exact io_bounded_handleDisconnect st sid hb

end IoServer

namespace Client

/-- The RTCPeerConnection fields the negotiation hook observes: the remote
description, the local description, and the remote ICE candidates applied
so far (in application order).  Per the platform contract,
`addIceCandidate` rejects while no remote description is set; the hook
catches and logs that rejection (useWebRTC.ts lines 316-318). -/
structure PeerConn where
  remoteDesc : Option Payload := none
  localDesc : Option Payload := none
  applied : List Payload := []
deriving DecidableEq

/-- A local audio track; `stopped` is set by `track.stop()`. -/
structure Track where
  id : Nat
  stopped : Bool := false
deriving DecidableEq

/-- The refs held by useWebRTC.ts (lines 8-12): peer connection, local
stream, remote stream, current room and user id. -/
structure ClientState where
  peerConnection : Option PeerConn := none
  localStream : Option (List Track) := none
  remoteStream : Option Payload := none
  currentRoom : Option String := none
  userId : String := ""
deriving DecidableEq

/-- Externally observable resource releases performed by the hook. -/
inductive Effect
  | sentLeave (roomId userId : String)
  | stoppedTrack (id : Nat)
  | closedPeerConnection
deriving DecidableEq

/-- useWebRTC.ts `createPeerConnection` (lines 28-133), reduced to its
state effect: install a fresh peer connection. -/
def createPeerConnection (st : ClientState) : ClientState :=
  let pc : PeerConn := {}
  { st with peerConnection := some pc }

/-- useWebRTC.ts `addIceCandidate` (lines 306-319).  When no peer
connection exists the function logs a warning and returns: the candidate
is dropped, there is no queue.  When a peer connection exists the
candidate is handed to it immediately; the platform rejects it if the
remote description is not yet set, and the catch block only logs, so the
candidate is dropped in that case too. -/
def addIceCandidate (st : ClientState) (c : Payload) : ClientState :=
  match st.peerConnection with
  | none => st
  | some pc =>
    match pc.remoteDesc with
    | none => st
    | some _ =>
      { st with peerConnection := some { pc with applied := pc.applied ++ [c] } }

/-- useWebRTC.ts `createAnswer` (lines 256-287), reduced to its state
effect: set the received offer as remote description and an answer as
local description (a no-op here when no peer connection exists; the real
code throws in that case and the dispatcher guards against it). -/
def createAnswer (st : ClientState) (offer : Payload) : ClientState :=
  match st.peerConnection with
  | none => st
  | some pc =>
    let pc' : PeerConn :=
      { pc with remoteDesc := some offer, localDesc := some ("answer:" ++ offer) }
    { st with peerConnection := some pc' }

/-- useWebRTC.ts `leaveRoom` (lines 159-165): when a room is set and the
user id is non-empty, send the leave message and clear the room ref. -/
def leaveRoomC (st : ClientState) : ClientState × List Effect :=
  match st.currentRoom with
  | none => (st, [])
  | some r =>
    if st.userId = "" then (st, [])
    else ({ st with currentRoom := none }, [Effect.sentLeave r st.userId])

/-- useWebRTC.ts `cleanup` (lines 336-363): leave the signaling room, stop
every local track and drop the stream ref, close the peer connection and
drop its ref, clear the remote stream ref.  Each guard skips its block
when the ref is already null. -/
def cleanup (st : ClientState) : ClientState × List Effect :=
  let r1 := leaveRoomC st
  let r2 :=
    match r1.1.localStream with
    | some tracks =>
        ({ r1.1 with localStream := none },
         tracks.map fun (t : Track) => Effect.stoppedTrack t.id)
    | none => (r1.1, [])
  let r3 :=
    match r2.1.peerConnection with
    | some _ => ({ r2.1 with peerConnection := none }, [Effect.closedPeerConnection])
    | none => (r2.1, [])
  ({ r3.1 with remoteStream := none }, r1.2 ++ r2.2 ++ r3.2)

end Client

namespace Xirsys

/-- A JS `urls` field value: either not an array (possibly undefined/null,
modelled as `none`) or an array of such values. -/
inductive JsUrls
  | notArr (v : Option String)
  | isArr (xs : List (Option String))
deriving DecidableEq

/-- An entry of the provider response (xirsysService.ts lines 2-6). -/
structure XirsysIceServer where
  urls : JsUrls
  username : Option String := none
  credential : Option String := none
deriving DecidableEq

/-- An entry of the list handed to RTCPeerConnection. -/
structure RTCIceServer where
  urls : JsUrls
  username : Option String := none
  credential : Option String := none
deriving DecidableEq

/-- JS truthiness of a possibly-absent string (undefined, null and the
empty string are falsy). -/
def truthy : Option String → Bool
  | none => false
  | some s => decide (s ≠ "")

/-- The conditional field copy of xirsysService.ts lines 52-57: the field
is set only when the source value is truthy. -/
def keepTruthy (v : Option String) : Option String :=
  if truthy v then v else none

/-- The map step of xirsysService.ts lines 47-59: wrap a non-array `urls`
in a singleton array and copy truthy credentials. -/
def convertServer (s : XirsysIceServer) : RTCIceServer :=
  { urls := JsUrls.isArr (match s.urls with
      | JsUrls.isArr xs => xs
      | JsUrls.notArr v => [v]),
    username := keepTruthy s.username,
    credential := keepTruthy s.credential }

/-- The filter step of xirsysService.ts lines 60-67: drop entries whose
`urls` is falsy, and array entries whose elements are not all truthy
strings. -/
def filterServer (r : RTCIceServer) : Bool :=
  match r.urls with
  | JsUrls.notArr v => truthy v
  | JsUrls.isArr xs => xs.all truthy

/-- Map then filter, as the code composes them. -/
def convert (xs : List XirsysIceServer) : List RTCIceServer :=
  (xs.map convertServer).filter filterServer

/-- The hardcoded fallback of xirsysService.ts lines 74-77: two public
STUN servers. -/
def fallbackServers : List RTCIceServer :=
  [ { urls := JsUrls.notArr (some "stun:stun.l.google.com:19302") },
    { urls := JsUrls.notArr (some "stun1:stun1.l.google.com:19302") } ]

/-- One observable outcome of the PUT request to the provider: `ok` is the
HTTP success flag, and the two optional fields are `data.v.iceServers`
and `data.iceServers` of the parsed JSON body (both `none` also covers an
unparsable body). A failed request is modelled by `none` at the call
site. -/
structure ProviderResponse where
  ok : Bool
  vIceServers : Option (List XirsysIceServer) := none
  topIceServers : Option (List XirsysIceServer) := none
deriving DecidableEq

/-- xirsysService.ts `getIceServers` (lines 17-79): any thrown error
(network failure, non-ok status, unexpected body shape) is caught and
answered with the fallback list; otherwise the provider entries are
converted. -/
def getIceServers (outcome : Option ProviderResponse) : List RTCIceServer :=
  match outcome with
  | none => fallbackServers
  | some r =>
    if r.ok = false then fallbackServers
    else
      match r.vIceServers with
      | some xs => convert xs
      | none =>
        match r.topIceServers with
        | some xs => convert xs
        | none => fallbackServers

end Xirsys

namespace Reconnect

/-- The reconnection counters of the realSignalingService variant
(part_002 lines 18-20). -/
structure State where
  reconnectAttempts : Nat
  reconnectDelay : Nat
deriving DecidableEq

/-- Maximum number of reconnection attempts (part_002 line 19). -/
def maxReconnectAttempts : Nat := 5

/-- Fresh service state (part_002 lines 18-20). -/
def initial : State := { reconnectAttempts := 0, reconnectDelay := 1000 }

/-- What `handleReconnect` does besides updating counters: schedule a
`connect()` after a delay, or emit the terminal error frame upward. -/
inductive Action
  | scheduleConnect (delayMs : Nat)
  | emitError (message : String)
deriving DecidableEq

/-- part_002 `handleReconnect` (lines 84-101), run on every transport
close: below the cap, increment the counter, schedule `connect()` after
the current delay and double the delay; at the cap, emit a single
`error` frame upward and schedule nothing. -/
def handleReconnect (st : State) : State × List Action :=
  if st.reconnectAttempts < maxReconnectAttempts then
    ({ reconnectAttempts := st.reconnectAttempts + 1,
       reconnectDelay := st.reconnectDelay * 2 },
     [Action.scheduleConnect st.reconnectDelay])
  else
    (st, [Action.emitError "Connexion au serveur perdue"])

/-- The episode in which every reconnection attempt fails: `n` transport
closes starting from the fresh state, accumulating the actions taken. -/
def runCloses : Nat → State × List Action
  | 0 => (initial, [])
  | n + 1 =>
    let prev := runCloses n
    let next := handleReconnect prev.1
    (next.1, prev.2 ++ next.2)

/-- The delays of the scheduled reconnection attempts, in order. -/
def scheduledDelays (acts : List Action) : List Nat :=
  acts.filterMap fun a => match a with
    | Action.scheduleConnect d => some d
    | Action.emitError _ => none

/-- How many terminal error frames were emitted. -/
def errorCount (acts : List Action) : Nat :=
  acts.countP fun a => match a with
    | Action.emitError _ => true
    | Action.scheduleConnect _ => false

theorem runCloses_succ (n : Nat) :
    runCloses (n + 1) =
      ((handleReconnect (runCloses n).1).1,
       (runCloses n).2 ++ (handleReconnect (runCloses n).1).2) := by
  simp [runCloses]

theorem runCloses_state (n : Nat) :
    (runCloses n).1 = { reconnectAttempts := min n 5, reconnectDelay := 1000 * 2 ^ min n 5 } := by
  induction n with
  | zero => simp [runCloses, initial]
  | succ n ih =>
    rw [runCloses_succ, ih]
    by_cases h : n < 5
    · have hmin : min n 5 = n := by omega
      have hmin' : min (n + 1) 5 = n + 1 := by omega
      have hd : 1000 * 2 ^ n * 2 = 1000 * 2 ^ (n + 1) := by ring
      simp [handleReconnect, maxReconnectAttempts, hmin, hmin', h, hd]
    · have hmin : min n 5 = 5 := by omega
      have hmin' : min (n + 1) 5 = 5 := by omega
      simp [handleReconnect, maxReconnectAttempts, hmin, hmin']

theorem runCloses_delays (n : Nat) :
    scheduledDelays (runCloses n).2 = (List.range (min n 5)).map fun i => 1000 * 2 ^ i := by
  induction n with
  | zero => simp [runCloses, scheduledDelays]
  | succ n ih =>
    by_cases h : n < 5
    · have hmin : min n 5 = n := by omega
      have hmin' : min (n + 1) 5 = n + 1 := by omega
      have hstep : (handleReconnect (runCloses n).1).2 =
          [Action.scheduleConnect (1000 * 2 ^ n)] := by
        rw [runCloses_state n, hmin]
        simp [handleReconnect, maxReconnectAttempts, h]
      rw [runCloses_succ]
      simp only [scheduledDelays, List.filterMap_append] at ih ⊢
      rw [hstep, ih, hmin, hmin', List.range_succ]
      simp

    · have hmin : min n 5 = 5 := by omega
      have hmin' : min (n + 1) 5 = 5 := by omega
      have hstep : (handleReconnect (runCloses n).1).2 =
          [Action.emitError "Connexion au serveur perdue"] := by
        rw [runCloses_state n, hmin]
        simp [handleReconnect, maxReconnectAttempts]
      rw [runCloses_succ]
      simp only [scheduledDelays, List.filterMap_append] at ih ⊢
      rw [hstep, ih, hmin, hmin']
      simp

theorem errorCount_append (l1 l2 : List Action) :
    errorCount (l1 ++ l2) = errorCount l1 + errorCount l2 := by
  simp [errorCount, List.countP_append]

theorem errorCount_schedule (d : Nat) : errorCount [Action.scheduleConnect d] = 0 := rfl

theorem errorCount_error (s : String) : errorCount [Action.emitError s] = 1 := rfl

theorem runCloses_errors (n : Nat) :
    errorCount (runCloses n).2 = n - 5 := by
  induction n with
  | zero => simp [runCloses, errorCount]
  | succ n ih =>
    by_cases h : n < 5
    · have hstep : (handleReconnect (runCloses n).1).2 =
          [Action.scheduleConnect (1000 * 2 ^ n)] := by
        rw [runCloses_state n]
        have hmin : min n 5 = n := by omega
        rw [hmin]
        simp [handleReconnect, maxReconnectAttempts, h]
      rw [runCloses_succ]
      show errorCount ((runCloses n).2 ++ (handleReconnect (runCloses n).1).2) = n + 1 - 5
      rw [hstep, errorCount_append, ih, errorCount_schedule]
      omega
    · have hstep : (handleReconnect (runCloses n).1).2 =
          [Action.emitError "Connexion au serveur perdue"] := by
        rw [runCloses_state n]
        have hmin : min n 5 = 5 := by omega
        rw [hmin]
        simp [handleReconnect, maxReconnectAttempts]
      rw [runCloses_succ]
      show errorCount ((runCloses n).2 ++ (handleReconnect (runCloses n).1).2) = n + 1 - 5
      rw [hstep, errorCount_append, ih, errorCount_error]
      omega

end Reconnect

section ClaimHelpers

theorem ws_join_full (st : WsServer.State) (ws : Nat) (roomId userId : String)
    (room : List String) (hr : alookup st.rooms roomId = some room)
    (hfull : 2 ≤ room.length) :
    WsServer.handleJoinRoom st ws roomId userId =
      (st, [(ws, { type := "error", message := some "Salle pleine" })]) := by
  unfold WsServer.handleJoinRoom
  simp [hr, hfull]

theorem io_join_full (st : IoServer.State) (sid : Nat) (roomId userId : String)
    (room : List Nat) (hr : alookup st.rooms roomId = some room)
    (hfull : 2 ≤ room.length) :
    IoServer.handleJoinRoom st sid roomId userId =
      (st, [(sid, { type := "join-error", message := some "Salle pleine" })]) := by
  unfold IoServer.handleJoinRoom
  simp [hr, hfull]

end ClaimHelpers

/-- C1, counterexample to the claim as stated.  In the ws relay
(signalingServer.js lines 72-78), a third `join-room` for a room that
already holds the two occupants a and b is answered with a frame of type
`error`, not `join-error`: the claim names the wrong reply type for this
variant (only the socket.io variant, server.js line 51, uses
`join-error`). -/
theorem claim_C1_cex :
    ((WsServer.handleJoinRoom ⟨[("R1", ["a", "b"])], [(0, ⟨"a", "R1"⟩), (1, ⟨"b", "R1"⟩)]⟩
        2 "R1" "c").2.map fun q => q.2.type) = ["error"] ∧
    ∀ q ∈ (WsServer.handleJoinRoom ⟨[("R1", ["a", "b"])], [(0, ⟨"a", "R1"⟩), (1, ⟨"b", "R1"⟩)]⟩
        2 "R1" "c").2, q.2.type ≠ "join-error" := by
  decide

/-- C1, amended: in both server variants every event preserves the
invariant that no room of the registry holds more than two participants,
and a join-room request for a room that already holds two occupants is
answered with a rejection frame sent only to the joining connection
(`join-error` in the socket.io server, `error` in the ws server) while
the registry, the room and the connection table are left unchanged. -/
theorem claim_C1_amended :
    (∀ (st : WsServer.State) (e : WsServer.Event),
        WsServer.Bounded st → WsServer.Bounded (WsServer.step st e).1) ∧
    (∀ (st : IoServer.State) (e : IoServer.Event),
        IoServer.Bounded st → IoServer.Bounded (IoServer.step st e).1) ∧
    (∀ (st : WsServer.State) (ws : Nat) (roomId userId : String) (room : List String),
        alookup st.rooms roomId = some room → 2 ≤ room.length →
        WsServer.handleJoinRoom st ws roomId userId =
          (st, [(ws, { type := "error", message := some "Salle pleine" })])) ∧
    (∀ (st : IoServer.State) (sid : Nat) (roomId userId : String) (room : List Nat),
        alookup st.rooms roomId = some room → 2 ≤ room.length →
        IoServer.handleJoinRoom st sid roomId userId =
          (st, [(sid, { type := "join-error", message := some "Salle pleine" })])) :=
  ⟨fun st e hb => WsServer.ws_bounded_step st e hb,
   fun st e hb => IoServer.io_bounded_step st e hb,
   fun st ws roomId userId room hr hfull => ws_join_full st ws roomId userId room hr hfull,
   fun st sid roomId userId room hr hfull => io_join_full st sid roomId userId room hr hfull⟩

/-- C1, witness: the amended theorem evaluated on a concrete full room in
each variant, plus the invariant on a concrete one-occupant room taking a
second join. -/
theorem claim_C1_witness :
    WsServer.handleJoinRoom ⟨[("R1", ["a", "b"])], [(0, ⟨"a", "R1"⟩), (1, ⟨"b", "R1"⟩)]⟩
        2 "R1" "c" =
      (⟨[("R1", ["a", "b"])], [(0, ⟨"a", "R1"⟩), (1, ⟨"b", "R1"⟩)]⟩,
       [(2, { type := "error", message := some "Salle pleine" })]) ∧
    IoServer.handleJoinRoom ⟨[("R1", [10, 11])], [("R1", [10, 11])],
        [(10, ⟨some "a", some "R1"⟩), (11, ⟨some "b", some "R1"⟩)]⟩ 12 "R1" "c" =
      (⟨[("R1", [10, 11])], [("R1", [10, 11])],
        [(10, ⟨some "a", some "R1"⟩), (11, ⟨some "b", some "R1"⟩)]⟩,
       [(12, { type := "join-error", message := some "Salle pleine" })]) ∧
    WsServer.Bounded
      (WsServer.step ⟨[("R1", ["a"])], [(0, ⟨"a", "R1"⟩)]⟩
        (WsServer.Event.joinRoom 1 "R1" "b")).1 :=
  ⟨claim_C1_amended.2.2.1 _ 2 "R1" "c" ["a", "b"] (by decide) (by decide),
   claim_C1_amended.2.2.2 _ 12 "R1" "c" [10, 11] (by decide) (by decide),
   claim_C1_amended.1 _ (WsServer.Event.joinRoom 1 "R1" "b")
     (by unfold WsServer.Bounded; decide)⟩

theorem ws_mem_broadcast_msg (st : WsServer.State) (roomId : String) (msg : OutMsg)
    (ex : String) (q : Nat × OutMsg) (hq : q ∈ WsServer.broadcastToRoom st roomId msg ex) :
    q.2 = msg := by
  unfold WsServer.broadcastToRoom at hq
  cases hcase : alookup st.rooms roomId with
  | none =>
    rw [hcase] at hq
    simp at hq
  | some room =>
    rw [hcase] at hq
    obtain ⟨p, hp, hq2⟩ := List.mem_map.mp hq
    rw [← hq2]

theorem ws_join_reply (st : WsServer.State) (ws : Nat) (roomId userId : String)
    (hlen : ((alookup st.rooms roomId).getD []).length < 2) :
    ((WsServer.handleJoinRoom st ws roomId userId).2).head? =
      some (ws, { type := "joined-room", roomId := some roomId, userId := some userId }) ∧
    ∀ q ∈ (WsServer.handleJoinRoom st ws roomId userId).2, q.2.isHost = none := by
  cases hcase : alookup st.rooms roomId with
  | none =>
    unfold WsServer.handleJoinRoom
    simp only [hcase, alookup_aset_self, Option.getD_some]
    constructor
    · simp [setAdd]
    · intro q hq
      simp [setAdd] at hq
      simp [hq]
  | some room =>
    rw [hcase] at hlen
    simp only [Option.getD_some] at hlen
    have hfull : ¬ (2 ≤ room.length) := by omega
    unfold WsServer.handleJoinRoom
    simp only [hcase, Option.getD_some, if_neg hfull]
    constructor
    · simp
    · intro q hq
      simp at hq
      rcases hq with hq | hq
      · simp [hq]
      · rcases hq with ⟨h2, hq⟩
        have := ws_mem_broadcast_msg _ _ _ _ q hq
        simp [this]

theorem io_join_reply (st : IoServer.State) (sid : Nat) (roomId userId : String)
    (hlen : ((alookup st.rooms roomId).getD []).length < 2)
    (hmem : sid ∉ (alookup st.rooms roomId).getD []) :
    ((IoServer.handleJoinRoom st sid roomId userId).2).head? =
      some (sid, { type := "joined-room", roomId := some roomId, userId := some userId,
                   isHost := some (decide (((alookup st.rooms roomId).getD []).length = 0)) }) := by
  cases hcase : alookup st.rooms roomId with
  | none =>
    unfold IoServer.handleJoinRoom
    simp only [hcase, alookup_aset_self, Option.getD_some, Option.getD_none]
    simp [setAdd]
  | some room =>
    rw [hcase] at hlen hmem
    simp only [Option.getD_some] at hlen hmem
    have hfull : ¬ (2 ≤ room.length) := by omega
    have hadd : setAdd room sid = room ++ [sid] := setAdd_not_mem _ _ hmem
    unfold IoServer.handleJoinRoom
    simp only [hcase, Option.getD_some, if_neg hfull, hadd]
    have hiff : (room.length + 1 = 1) ↔ (room.length = 0) := by omega
    simp [decide_eq_decide.mpr hiff]

/-- C7, counterexample to the claim as stated.  An accepted join in the ws
relay (signalingServer.js lines 87-91) is confirmed with a `joined-room`
frame that carries only roomId and userId: it has no isHost field at all,
so not every accepted join is answered with a reply carrying an isHost
boolean. -/
theorem claim_C7_cex :
    (WsServer.handleJoinRoom ⟨[], []⟩ 1 "R1" "a").2 =
      [(1, { type := "joined-room", roomId := some "R1", userId := some "a" })] ∧
    ∀ q ∈ (WsServer.handleJoinRoom ⟨[], []⟩ 1 "R1" "a").2, q.2.isHost = none := by
  decide

/-- C7, amended: in the socket.io server every accepted join is answered
with a `joined-room` reply to the joining connection carrying an isHost
boolean that is true exactly when the joiner is the first occupant of the
room; in the ws server the `joined-room` reply carries no isHost field
(and no frame sent by that handler does). -/
theorem claim_C7_amended :
    (∀ (st : IoServer.State) (sid : Nat) (roomId userId : String),
        ((alookup st.rooms roomId).getD []).length < 2 →
        sid ∉ (alookup st.rooms roomId).getD [] →
        ((IoServer.handleJoinRoom st sid roomId userId).2).head? =
          some (sid, { type := "joined-room", roomId := some roomId, userId := some userId,
                       isHost := some (decide (((alookup st.rooms roomId).getD []).length = 0)) })) ∧
    (∀ (st : WsServer.State) (ws : Nat) (roomId userId : String),
        ((alookup st.rooms roomId).getD []).length < 2 →
        ((WsServer.handleJoinRoom st ws roomId userId).2).head? =
          some (ws, { type := "joined-room", roomId := some roomId, userId := some userId }) ∧
        ∀ q ∈ (WsServer.handleJoinRoom st ws roomId userId).2, q.2.isHost = none) :=
  ⟨fun st sid roomId userId hlen hmem => io_join_reply st sid roomId userId hlen hmem,
   fun st ws roomId userId hlen => ws_join_reply st ws roomId userId hlen⟩

/-- C7, witness: the first join into an empty registry is confirmed with
isHost true in the socket.io server, and a second join into a room of one
is confirmed with isHost false. -/
theorem claim_C7_witness :
    ((IoServer.handleJoinRoom ⟨[], [], []⟩ 1 "R1" "a").2).head? =
      some (1, { type := "joined-room", roomId := some "R1", userId := some "a",
                 isHost := some true }) ∧
    ((IoServer.handleJoinRoom ⟨[("R1", [1])], [("R1", [1])], [(1, ⟨some "a", some "R1"⟩)]⟩
        2 "R1" "b").2).head? =
      some (2, { type := "joined-room", roomId := some "R1", userId := some "b",
                 isHost := some false }) :=
  ⟨claim_C7_amended.1 ⟨[], [], []⟩ 1 "R1" "a" (by decide) (by decide),
   claim_C7_amended.1 ⟨[("R1", [1])], [("R1", [1])], [(1, ⟨some "a", some "R1"⟩)]⟩
     2 "R1" "b" (by decide) (by decide)⟩


theorem ws_leave_size2 (st : WsServer.State) (w w2 : Nat) (a b R : String)
    (room : List String)
    (hconn : alookup st.connections w = some ⟨a, R⟩)
    (hroom : alookup st.rooms R = some room)
    (hmem : a ∈ room) (hlen : room.length = 2)
    (hothers : (st.connections.filter fun q =>
        decide (q.2.roomId = R ∧ q.2.userId ≠ a)) = [(w2, ⟨b, R⟩)]) :
    (WsServer.handleLeaveRoom st w).2 =
      [(w2, { type := "user-left", roomId := some R, userId := some a })] ∧
    alookup (WsServer.handleLeaveRoom st w).1.rooms R = some (setDel room a) ∧
    (setDel room a).length = 1 ∧
    (∀ R2, R2 ≠ R →
      alookup (WsServer.handleLeaveRoom st w).1.rooms R2 = alookup st.rooms R2) := by
  have hdel : (setDel room a).length = 1 := by
    rw [setDel_length_mem room a hmem, hlen]
  have hz : ¬ ((setDel room a).length = 0) := by omega
  have hmain : WsServer.handleLeaveRoom st w =
      ({ rooms := aset st.rooms R (setDel room a), connections := adel st.connections w },
       [(w2, { type := "user-left", roomId := some R, userId := some a })]) := by
    have hothers' := hothers
    simp only [ne_eq, Bool.decide_and, decide_not] at hothers'
    have hz' : ¬ (setDel room a = []) := by
      intro hh
      rw [hh] at hz
      exact hz rfl
    unfold WsServer.handleLeaveRoom WsServer.broadcastToRoom
    simp only [hconn, hroom]
    simp [alookup_aset_self, hz, hz', hothers, hothers']
  rw [hmain]
  refine ⟨rfl, ?_, hdel, ?_⟩
  · exact alookup_aset_self _ _ _
  · intro R2 hR2
    exact alookup_aset_ne _ _ _ _ hR2

theorem ws_leave_size1 (st : WsServer.State) (w : Nat) (a R : String)
    (room : List String)
    (hconn : alookup st.connections w = some ⟨a, R⟩)
    (hroom : alookup st.rooms R = some room)
    (hmem : a ∈ room) (hlen : room.length = 1)
    (hothers : (st.connections.filter fun q =>
        decide (q.2.roomId = R ∧ q.2.userId ≠ a)) = []) :
    (WsServer.handleLeaveRoom st w).2 = [] ∧
    alookup (WsServer.handleLeaveRoom st w).1.rooms R = none ∧
    (∀ R2, R2 ≠ R →
      alookup (WsServer.handleLeaveRoom st w).1.rooms R2 = alookup st.rooms R2) ∧
    (WsServer.handleLeaveRoom st w).1.connections = adel st.connections w := by
  have hdel : (setDel room a).length = 0 := by
    rw [setDel_length_mem room a hmem, hlen]
  have hmain : WsServer.handleLeaveRoom st w =
      ({ rooms := adel (aset st.rooms R (setDel room a)) R,
         connections := adel st.connections w }, []) := by
    have hothers' := hothers
    simp only [ne_eq, Bool.decide_and, decide_not] at hothers'
    have hdel' : setDel room a = [] := List.length_eq_zero.mp hdel
    unfold WsServer.handleLeaveRoom WsServer.broadcastToRoom
    simp only [hconn, hroom]
    simp [alookup_aset_self, hdel, hdel', hothers, hothers']
  rw [hmain]
  refine ⟨rfl, ?_, ?_, rfl⟩
  · exact alookup_adel_self _ _
  · intro R2 hR2
    rw [alookup_adel_ne _ _ _ hR2]
    exact alookup_aset_ne _ _ _ _ hR2

theorem ws_leave_noconn (st : WsServer.State) (w : Nat)
    (hconn : alookup st.connections w = none) :
    WsServer.handleLeaveRoom st w = (st, []) := by
  unfold WsServer.handleLeaveRoom
  simp [hconn]

theorem ws_leave_noroom (st : WsServer.State) (w : Nat) (a R : String)
    (hconn : alookup st.connections w = some ⟨a, R⟩)
    (hroom : alookup st.rooms R = none) :
    WsServer.handleLeaveRoom st w =
      ({ rooms := st.rooms, connections := adel st.connections w }, []) := by
  unfold WsServer.handleLeaveRoom
  simp [hconn, hroom]

theorem io_leave_size2 (st : IoServer.State) (sid s2 : Nat) (u R : String)
    (room mem : List Nat)
    (hsock : alookup st.socks sid = some ⟨some u, some R⟩)
    (hroom : alookup st.rooms R = some room)
    (hmem : sid ∈ room) (hlen : room.length = 2)
    (hmemb : alookup st.member R = some mem)
    (hothers : (mem.filter fun s => decide (s ≠ sid)) = [s2]) :
    (IoServer.handleLeaveRoom st sid).2 =
      [(s2, { type := "user-left", userId := some u })] ∧
    alookup (IoServer.handleLeaveRoom st sid).1.rooms R = some (setDel room sid) ∧
    (setDel room sid).length = 1 := by
  have hdel : (setDel room sid).length = 1 := by
    rw [setDel_length_mem room sid hmem, hlen]
  have hz : ¬ ((setDel room sid).length = 0) := by omega
  have hmain : (IoServer.handleLeaveRoom st sid).2 =
        [(s2, { type := "user-left", userId := some u })] ∧
      (IoServer.handleLeaveRoom st sid).1.rooms = aset st.rooms R (setDel room sid) := by
    have hothers' := hothers
    simp only [ne_eq, decide_not] at hothers'
    have hz' : ¬ (setDel room sid = []) := by
      intro hh
      rw [hh] at hz
      exact hz rfl
    unfold IoServer.handleLeaveRoom IoServer.emitTo
    simp [hsock, hroom, hmemb, hz, hz', hothers, hothers']
  refine ⟨hmain.1, ?_, hdel⟩
  rw [hmain.2]
  exact alookup_aset_self _ _ _

theorem io_leave_size1 (st : IoServer.State) (sid : Nat) (u R : String)
    (room mem : List Nat)
    (hsock : alookup st.socks sid = some ⟨some u, some R⟩)
    (hroom : alookup st.rooms R = some room)
    (hmem : sid ∈ room) (hlen : room.length = 1)
    (hmemb : alookup st.member R = some mem)
    (hothers : (mem.filter fun s => decide (s ≠ sid)) = []) :
    (IoServer.handleLeaveRoom st sid).2 = [] ∧
    alookup (IoServer.handleLeaveRoom st sid).1.rooms R = none := by
  have hdel : (setDel room sid).length = 0 := by
    rw [setDel_length_mem room sid hmem, hlen]
  have hmain : (IoServer.handleLeaveRoom st sid).2 = [] ∧
      (IoServer.handleLeaveRoom st sid).1.rooms = adel st.rooms R := by
    have hothers' := hothers
    simp only [ne_eq, decide_not] at hothers'
    have hdel' : setDel room sid = [] := List.length_eq_zero.mp hdel
    unfold IoServer.handleLeaveRoom IoServer.emitTo
    simp [hsock, hroom, hmemb, hdel, hdel', hothers, hothers']
  refine ⟨hmain.1, ?_⟩
  rw [hmain.2]
  exact alookup_adel_self _ _

theorem io_leave_nosock (st : IoServer.State) (sid : Nat)
    (hsock : ((alookup st.socks sid).getD {}).roomId = none) :
    IoServer.handleLeaveRoom st sid = (st, []) := by
  unfold IoServer.handleLeaveRoom
  simp [hsock]

theorem io_leave_noroom (st : IoServer.State) (sid : Nat) (u : Option String) (R : String)
    (hsock : alookup st.socks sid = some ⟨u, some R⟩)
    (hroom : alookup st.rooms R = none) :
    IoServer.handleLeaveRoom st sid = (st, []) := by
  unfold IoServer.handleLeaveRoom
  simp [hsock, hroom]

theorem ws_disconnection_eq (st : WsServer.State) (w : Nat) (conn : WsServer.Conn)
    (hconn : alookup st.connections w = some conn) :
    WsServer.handleDisconnection st w = WsServer.handleLeaveRoom st w := by
  unfold WsServer.handleDisconnection
  simp [hconn]

theorem io_disconnect_size2 (st : IoServer.State) (sid s2 : Nat) (u R : String)
    (room mem : List Nat)
    (hsock : alookup st.socks sid = some ⟨some u, some R⟩)
    (hroom : alookup st.rooms R = some room)
    (hmem : sid ∈ room) (hlen : room.length = 2)
    (hmemb : alookup st.member R = some mem)
    (hothers : (mem.filter fun s => decide (s ≠ sid)) = [s2]) :
    (IoServer.handleDisconnect st sid).2 =
      [(s2, { type := "user-left", userId := some u })] ∧
    alookup (IoServer.handleDisconnect st sid).1.rooms R = some (setDel room sid) ∧
    (setDel room sid).length = 1 := by
  have hdel : (setDel room sid).length = 1 := by
    rw [setDel_length_mem room sid hmem, hlen]
  have hz : ¬ ((setDel room sid).length = 0) := by omega
  have hmain : (IoServer.handleDisconnect st sid).2 =
        [(s2, { type := "user-left", userId := some u })] ∧
      (IoServer.handleDisconnect st sid).1.rooms = aset st.rooms R (setDel room sid) := by
    have hothers' := hothers
    simp only [ne_eq, decide_not] at hothers'
    have hz' : ¬ (setDel room sid = []) := by
      intro hh
      rw [hh] at hz
      exact hz rfl
    unfold IoServer.handleDisconnect IoServer.emitTo
    simp [hsock, hroom, hmemb, hz, hz', hothers, hothers']
  refine ⟨hmain.1, ?_, hdel⟩
  rw [hmain.2]
  exact alookup_aset_self _ _ _

theorem io_disconnect_last (st : IoServer.State) (sid : Nat) (u R : String)
    (room mem : List Nat)
    (hsock : alookup st.socks sid = some ⟨some u, some R⟩)
    (hroom : alookup st.rooms R = some room)
    (hmem : sid ∈ room) (hlen : room.length = 1)
    (hmemb : alookup st.member R = some mem)
    (hothers : (mem.filter fun s => decide (s ≠ sid)) = []) :
    (IoServer.handleDisconnect st sid).2 = [] ∧
    alookup (IoServer.handleDisconnect st sid).1.rooms R = none := by
  have hdel : (setDel room sid).length = 0 := by
    rw [setDel_length_mem room sid hmem, hlen]
  have hmain : (IoServer.handleDisconnect st sid).2 = [] ∧
      (IoServer.handleDisconnect st sid).1.rooms = adel st.rooms R := by
    have hothers' := hothers
    simp only [ne_eq, decide_not] at hothers'
    have hdel' : setDel room sid = [] := List.length_eq_zero.mp hdel
    unfold IoServer.handleDisconnect IoServer.emitTo
    simp [hsock, hroom, hmemb, hdel, hdel', hothers, hothers']
  refine ⟨hmain.1, ?_⟩
  rw [hmain.2]
  exact alookup_adel_self _ _

/-- C5: in both server variants, leaving a room of size 1 deletes the room
from the registry (and touches no other room); leaving a room of size 2
leaves the room at size 1 and emits exactly one `user-left` frame, sent to
the one remaining occupant; a leave on a connection with no registration,
or whose registered room is no longer in the registry, sends nothing and
leaves the room registry unchanged (the ws variant still forgets the
stale connection entry, its only state effect). -/
theorem claim_C5 :
    (∀ (st : WsServer.State) (w : Nat) (a R : String) (room : List String),
        alookup st.connections w = some ⟨a, R⟩ →
        alookup st.rooms R = some room → a ∈ room → room.length = 1 →
        (st.connections.filter fun q =>
          decide (q.2.roomId = R ∧ q.2.userId ≠ a)) = [] →
        (WsServer.handleLeaveRoom st w).2 = [] ∧
        alookup (WsServer.handleLeaveRoom st w).1.rooms R = none ∧
        (∀ R2, R2 ≠ R →
          alookup (WsServer.handleLeaveRoom st w).1.rooms R2 = alookup st.rooms R2) ∧
        (WsServer.handleLeaveRoom st w).1.connections = adel st.connections w) ∧
    (∀ (st : WsServer.State) (w w2 : Nat) (a b R : String) (room : List String),
        alookup st.connections w = some ⟨a, R⟩ →
        alookup st.rooms R = some room → a ∈ room → room.length = 2 →
        (st.connections.filter fun q =>
          decide (q.2.roomId = R ∧ q.2.userId ≠ a)) = [(w2, ⟨b, R⟩)] →
        (WsServer.handleLeaveRoom st w).2 =
          [(w2, { type := "user-left", roomId := some R, userId := some a })] ∧
        alookup (WsServer.handleLeaveRoom st w).1.rooms R = some (setDel room a) ∧
        (setDel room a).length = 1 ∧
        (∀ R2, R2 ≠ R →
          alookup (WsServer.handleLeaveRoom st w).1.rooms R2 = alookup st.rooms R2)) ∧
    (∀ (st : WsServer.State) (w : Nat),
        alookup st.connections w = none →
        WsServer.handleLeaveRoom st w = (st, [])) ∧
    (∀ (st : WsServer.State) (w : Nat) (a R : String),
        alookup st.connections w = some ⟨a, R⟩ →
        alookup st.rooms R = none →
        WsServer.handleLeaveRoom st w =
          ({ rooms := st.rooms, connections := adel st.connections w }, [])) ∧
    (∀ (st : IoServer.State) (sid : Nat) (u R : String) (room mem : List Nat),
        alookup st.socks sid = some ⟨some u, some R⟩ →
        alookup st.rooms R = some room → sid ∈ room → room.length = 1 →
        alookup st.member R = some mem →
        (mem.filter fun s => decide (s ≠ sid)) = [] →
        (IoServer.handleLeaveRoom st sid).2 = [] ∧
        alookup (IoServer.handleLeaveRoom st sid).1.rooms R = none) ∧
    (∀ (st : IoServer.State) (sid s2 : Nat) (u R : String) (room mem : List Nat),
        alookup st.socks sid = some ⟨some u, some R⟩ →
        alookup st.rooms R = some room → sid ∈ room → room.length = 2 →
        alookup st.member R = some mem →
        (mem.filter fun s => decide (s ≠ sid)) = [s2] →
        (IoServer.handleLeaveRoom st sid).2 =
          [(s2, { type := "user-left", userId := some u })] ∧
        alookup (IoServer.handleLeaveRoom st sid).1.rooms R = some (setDel room sid) ∧
        (setDel room sid).length = 1) ∧
    (∀ (st : IoServer.State) (sid : Nat),
        ((alookup st.socks sid).getD {}).roomId = none →
        IoServer.handleLeaveRoom st sid = (st, [])) ∧
    (∀ (st : IoServer.State) (sid : Nat) (u : Option String) (R : String),
        alookup st.socks sid = some ⟨u, some R⟩ →
        alookup st.rooms R = none →
        IoServer.handleLeaveRoom st sid = (st, [])) :=
  ⟨fun st w a R room h1 h2 h3 h4 h5 => ws_leave_size1 st w a R room h1 h2 h3 h4 h5,
   fun st w w2 a b R room h1 h2 h3 h4 h5 => ws_leave_size2 st w w2 a b R room h1 h2 h3 h4 h5,
   fun st w h1 => ws_leave_noconn st w h1,
   fun st w a R h1 h2 => ws_leave_noroom st w a R h1 h2,
   fun st sid u R room mem h1 h2 h3 h4 h5 h6 => io_leave_size1 st sid u R room mem h1 h2 h3 h4 h5 h6,
   fun st sid s2 u R room mem h1 h2 h3 h4 h5 h6 => io_leave_size2 st sid s2 u R room mem h1 h2 h3 h4 h5 h6,
   fun st sid h1 => io_leave_nosock st sid h1,
   fun st sid u R h1 h2 => io_leave_noroom st sid u R h1 h2⟩

/-- C5, witness: the theorem evaluated on concrete one- and two-occupant
rooms of each variant and on an unregistered connection. -/
theorem claim_C5_witness :
    ((WsServer.handleLeaveRoom ⟨[("R1", ["a"])], [(0, ⟨"a", "R1"⟩)]⟩ 0).2 = [] ∧
     alookup (WsServer.handleLeaveRoom ⟨[("R1", ["a"])], [(0, ⟨"a", "R1"⟩)]⟩ 0).1.rooms "R1" =
       none) ∧
    ((WsServer.handleLeaveRoom
        ⟨[("R1", ["a", "b"])], [(0, ⟨"a", "R1"⟩), (1, ⟨"b", "R1"⟩)]⟩ 0).2 =
      [(1, { type := "user-left", roomId := some "R1", userId := some "a" })]) ∧
    (WsServer.handleLeaveRoom ⟨[("R1", ["a"])], []⟩ 5 = (⟨[("R1", ["a"])], []⟩, [])) ∧
    ((IoServer.handleLeaveRoom ⟨[("R1", [1, 2])], [("R1", [1, 2])],
        [(1, ⟨some "a", some "R1"⟩), (2, ⟨some "b", some "R1"⟩)]⟩ 2).2 =
      [(1, { type := "user-left", userId := some "b" })]) :=
  ⟨⟨(claim_C5.1 _ 0 "a" "R1" ["a"] (by decide) (by decide) (by decide) (by decide)
      (by decide)).1,
    (claim_C5.1 _ 0 "a" "R1" ["a"] (by decide) (by decide) (by decide) (by decide)
      (by decide)).2.1⟩,
   (claim_C5.2.1 _ 0 1 "a" "b" "R1" ["a", "b"] (by decide) (by decide) (by decide)
      (by decide) (by decide)).1,
   claim_C5.2.2.1 _ 5 (by decide),
   (claim_C5.2.2.2.2.2.1 _ 2 1 "b" "R1" [1, 2] [1, 2] (by decide) (by decide) (by decide)
      (by decide) (by decide) (by decide)).1⟩

/-- C6, counterexample to the claim as stated.  When socket 2 (user b) of
the two-occupant room R1 closes its transport, the remaining occupant does
receive `user-left` for b, but the room is not deleted: it stays in the
registry with the single occupant socket 1 (server.js lines 95-113 delete
the room only when it becomes empty). -/
theorem claim_C6_cex :
    (IoServer.handleDisconnect ⟨[("R1", [1, 2])], [("R1", [1, 2])],
        [(1, ⟨some "a", some "R1"⟩), (2, ⟨some "b", some "R1"⟩)]⟩ 2).2 =
      [(1, { type := "user-left", userId := some "b" })] ∧
    alookup (IoServer.handleDisconnect ⟨[("R1", [1, 2])], [("R1", [1, 2])],
        [(1, ⟨some "a", some "R1"⟩), (2, ⟨some "b", some "R1"⟩)]⟩ 2).1.rooms "R1" =
      some [1] := by
  decide

/-- C6, amended: a transport close of a socket of a two-occupant room is
treated as an implicit leave in both variants: the remaining occupant
receives exactly one `user-left` frame naming the departed user, and the
departed user is removed, but the room is not deleted — it remains in the
registry at size 1; the room is deleted only when its last occupant
disconnects. -/
theorem claim_C6_amended :
    (∀ (st : IoServer.State) (sid s2 : Nat) (u R : String) (room mem : List Nat),
        alookup st.socks sid = some ⟨some u, some R⟩ →
        alookup st.rooms R = some room → sid ∈ room → room.length = 2 →
        alookup st.member R = some mem →
        (mem.filter fun s => decide (s ≠ sid)) = [s2] →
        (IoServer.handleDisconnect st sid).2 =
          [(s2, { type := "user-left", userId := some u })] ∧
        alookup (IoServer.handleDisconnect st sid).1.rooms R = some (setDel room sid) ∧
        (setDel room sid).length = 1) ∧
    (∀ (st : IoServer.State) (sid : Nat) (u R : String) (room mem : List Nat),
        alookup st.socks sid = some ⟨some u, some R⟩ →
        alookup st.rooms R = some room → sid ∈ room → room.length = 1 →
        alookup st.member R = some mem →
        (mem.filter fun s => decide (s ≠ sid)) = [] →
        (IoServer.handleDisconnect st sid).2 = [] ∧
        alookup (IoServer.handleDisconnect st sid).1.rooms R = none) ∧
    (∀ (st : WsServer.State) (w w2 : Nat) (a b R : String) (room : List String),
        alookup st.connections w = some ⟨a, R⟩ →
        alookup st.rooms R = some room → a ∈ room → room.length = 2 →
        (st.connections.filter fun q =>
          decide (q.2.roomId = R ∧ q.2.userId ≠ a)) = [(w2, ⟨b, R⟩)] →
        (WsServer.handleDisconnection st w).2 =
          [(w2, { type := "user-left", roomId := some R, userId := some a })] ∧
        alookup (WsServer.handleDisconnection st w).1.rooms R = some (setDel room a) ∧
        (setDel room a).length = 1) := by
  refine ⟨fun st sid s2 u R room mem h1 h2 h3 h4 h5 h6 =>
      io_disconnect_size2 st sid s2 u R room mem h1 h2 h3 h4 h5 h6,
    fun st sid u R room mem h1 h2 h3 h4 h5 h6 =>
      io_disconnect_last st sid u R room mem h1 h2 h3 h4 h5 h6,
    fun st w w2 a b R room h1 h2 h3 h4 h5 => ?_⟩
  rw [ws_disconnection_eq st w ⟨a, R⟩ h1]
  have h := ws_leave_size2 st w w2 a b R room h1 h2 h3 h4 h5
  exact ⟨h.1, h.2.1, h.2.2.1⟩

/-- C6, witness: the amended theorem evaluated on a concrete two-occupant
room in each variant and on the final disconnect that empties the room. -/
theorem claim_C6_witness :
    ((IoServer.handleDisconnect ⟨[("R1", [1, 2])], [("R1", [1, 2])],
        [(1, ⟨some "a", some "R1"⟩), (2, ⟨some "b", some "R1"⟩)]⟩ 2).2 =
      [(1, { type := "user-left", userId := some "b" })]) ∧
    ((IoServer.handleDisconnect ⟨[("R1", [1])], [("R1", [1])],
        [(1, ⟨some "a", some "R1"⟩)]⟩ 1).2 = [] ∧
     alookup (IoServer.handleDisconnect ⟨[("R1", [1])], [("R1", [1])],
        [(1, ⟨some "a", some "R1"⟩)]⟩ 1).1.rooms "R1" = none) ∧
    ((WsServer.handleDisconnection
        ⟨[("R1", ["a", "b"])], [(0, ⟨"a", "R1"⟩), (1, ⟨"b", "R1"⟩)]⟩ 1).2 =
      [(0, { type := "user-left", roomId := some "R1", userId := some "b" })]) :=
  ⟨(claim_C6_amended.1 _ 2 1 "b" "R1" [1, 2] [1, 2] (by decide) (by decide) (by decide)
      (by decide) (by decide) (by decide)).1,
   claim_C6_amended.2.1 _ 1 "a" "R1" [1] [1] (by decide) (by decide) (by decide)
      (by decide) (by decide) (by decide),
   (claim_C6_amended.2.2 _ 1 0 "b" "a" "R1" ["a", "b"] (by decide) (by decide) (by decide)
      (by decide) (by decide)).1⟩

theorem ws_broadcast_mem_iff (st : WsServer.State) (roomId : String) (msg : OutMsg)
    (ex : String) (room : List String)
    (hroom : alookup st.rooms roomId = some room) (w2 : Nat) :
    (∃ m, (w2, m) ∈ WsServer.broadcastToRoom st roomId msg ex) ↔
    (∃ c2 : WsServer.Conn, (w2, c2) ∈ st.connections ∧
      c2.roomId = roomId ∧ c2.userId ≠ ex) := by
  unfold WsServer.broadcastToRoom
  rw [hroom]
  constructor
  · rintro ⟨m, hm⟩
    obtain ⟨q0, hq0, heq⟩ := List.mem_map.mp hm
    obtain ⟨hq0mem, hq0f⟩ := List.mem_filter.mp hq0
    rw [decide_eq_true_eq] at hq0f
    have hfst : q0.1 = w2 := congrArg Prod.fst heq
    refine ⟨q0.2, ?_, hq0f.1, hq0f.2⟩
    rw [← hfst]
    exact hq0mem
  · rintro ⟨c2, hc2, hr, hu⟩
    refine ⟨msg, ?_⟩
    have hmem2 : (w2, c2) ∈ st.connections.filter fun q =>
        decide (q.2.roomId = roomId ∧ q.2.userId ≠ ex) := by
      refine List.mem_filter.mpr ⟨hc2, ?_⟩
      rw [decide_eq_true_eq]
      exact ⟨hr, hu⟩
    exact List.mem_map_of_mem _ hmem2

theorem ws_handleOffer_eq (st : WsServer.State) (w : Nat) (p : Payload)
    (conn : WsServer.Conn) (hconn : alookup st.connections w = some conn) :
    WsServer.handleOffer st w p =
      (st, WsServer.broadcastToRoom st conn.roomId
        { type := "offer", data := some p, roomId := some conn.roomId } conn.userId) := by
  unfold WsServer.handleOffer
  simp [hconn]

theorem ws_handleAnswer_eq (st : WsServer.State) (w : Nat) (p : Payload)
    (conn : WsServer.Conn) (hconn : alookup st.connections w = some conn) :
    WsServer.handleAnswer st w p =
      (st, WsServer.broadcastToRoom st conn.roomId
        { type := "answer", data := some p, roomId := some conn.roomId } conn.userId) := by
  unfold WsServer.handleAnswer
  simp [hconn]

theorem ws_handleIce_eq (st : WsServer.State) (w : Nat) (p : Payload)
    (conn : WsServer.Conn) (hconn : alookup st.connections w = some conn) :
    WsServer.handleIceCandidate st w p =
      (st, WsServer.broadcastToRoom st conn.roomId
        { type := "ice-candidate", data := some p, roomId := some conn.roomId }
        conn.userId) := by
  unfold WsServer.handleIceCandidate
  simp [hconn]

theorem io_emit_mem_iff (st : IoServer.State) (sid : Nat) (roomId : String) (msg : OutMsg)
    (mem : List Nat) (hmemb : alookup st.member roomId = some mem) (s2 : Nat) :
    (∃ m, (s2, m) ∈ IoServer.emitTo st sid roomId msg) ↔ (s2 ∈ mem ∧ s2 ≠ sid) := by
  unfold IoServer.emitTo
  rw [hmemb]
  simp only [Option.getD_some]
  constructor
  · rintro ⟨m, hm⟩
    obtain ⟨s0, hs0, heq⟩ := List.mem_map.mp hm
    obtain ⟨hs0mem, hs0f⟩ := List.mem_filter.mp hs0
    rw [decide_eq_true_eq] at hs0f
    have hfst : s0 = s2 := congrArg Prod.fst heq
    rw [← hfst]
    exact ⟨hs0mem, hs0f⟩
  · rintro ⟨hmem2, hne⟩
    refine ⟨msg, ?_⟩
    have : s2 ∈ mem.filter fun s => decide (s ≠ sid) := by
      refine List.mem_filter.mpr ⟨hmem2, ?_⟩
      rw [decide_eq_true_eq]
      exact hne
    exact List.mem_map_of_mem _ this

theorem io_emit_msg (st : IoServer.State) (sid : Nat) (roomId : String) (msg : OutMsg)
    (q : Nat × OutMsg) (hq : q ∈ IoServer.emitTo st sid roomId msg) : q.2 = msg := by
  unfold IoServer.emitTo at hq
  obtain ⟨s0, hs0, heq⟩ := List.mem_map.mp hq
  rw [← heq]

/-- Exact delivery of one frame `msg` to the registered connections of a
room other than the sender: every frame sent equals `msg`, and a
connection receives something exactly when it is registered in the room
and is not the sender. -/
def DeliversExactly (conns : List (Nat × WsServer.Conn)) (roomId senderId : String)
    (sends : List (Nat × OutMsg)) (msg : OutMsg) : Prop :=
  (∀ q ∈ sends, q.2 = msg) ∧
  (∀ w2 : Nat, (∃ m, (w2, m) ∈ sends) ↔
    (∃ c2 : WsServer.Conn, (w2, c2) ∈ conns ∧ c2.roomId = roomId ∧ c2.userId ≠ senderId))

/-- Exact delivery to the adapter members of a room other than the
sender, in the socket.io relay. -/
def DeliversToMembers (mem : List Nat) (sid : Nat)
    (sends : List (Nat × OutMsg)) (msg : OutMsg) : Prop :=
  (∀ q ∈ sends, q.2 = msg) ∧
  (∀ s2 : Nat, (∃ m, (s2, m) ∈ sends) ↔ (s2 ∈ mem ∧ s2 ≠ sid))

theorem io_handleOffer_eq (st : IoServer.State) (sid : Nat) (R : String) (p : Payload) :
    IoServer.handleOffer st sid R p =
      (st,
       IoServer.emitTo st sid R
         { type := "offer", data := some p,
           fromUser := ((alookup st.socks sid).getD {}).userId }) := rfl

theorem io_handleAnswer_eq (st : IoServer.State) (sid : Nat) (R : String) (p : Payload) :
    IoServer.handleAnswer st sid R p =
      (st,
       IoServer.emitTo st sid R
         { type := "answer", data := some p,
           fromUser := ((alookup st.socks sid).getD {}).userId }) := rfl

theorem io_handleIce_eq (st : IoServer.State) (sid : Nat) (R : String) (p : Payload) :
    IoServer.handleIceCandidate st sid R p =
      (st,
       IoServer.emitTo st sid R
         { type := "ice-candidate", data := some p,
           fromUser := ((alookup st.socks sid).getD {}).userId }) := rfl

/-- C4, counterexample to the claim as stated.  The socket.io relay routes
an offer by the roomId carried in the message, without checking the room
the sender occupies (server.js lines 74-78).  Socket 1 occupies R1, but
its offer tagged R2 is delivered to both occupants of R2 and not to the
other occupant of R1 — so the payload is not forwarded to every occupant
of the room the sender occupies, and it reaches occupants of another
room. -/
theorem claim_C4_cex :
    ((alookup (IoServer.State.mk [("R1", [1, 2]), ("R2", [3, 4])]
        [("R1", [1, 2]), ("R2", [3, 4])]
        [(1, ⟨some "a", some "R1"⟩), (2, ⟨some "b", some "R1"⟩),
         (3, ⟨some "c", some "R2"⟩), (4, ⟨some "d", some "R2"⟩)]).socks 1).getD {}).roomId =
      some "R1" ∧
    (IoServer.handleOffer (IoServer.State.mk [("R1", [1, 2]), ("R2", [3, 4])]
        [("R1", [1, 2]), ("R2", [3, 4])]
        [(1, ⟨some "a", some "R1"⟩), (2, ⟨some "b", some "R1"⟩),
         (3, ⟨some "c", some "R2"⟩), (4, ⟨some "d", some "R2"⟩)]) 1 "R2" "sdpBlob").2 =
      [(3, { type := "offer", data := some "sdpBlob", fromUser := some "a" }),
       (4, { type := "offer", data := some "sdpBlob", fromUser := some "a" })] := by
  decide

/-- C4, amended: the ws relay forwards every offer, answer and
ice-candidate payload unchanged, without inspecting it, to exactly the
other registered occupants of the room the sender occupies, touching no
other room and leaving the state unchanged.  The socket.io relay routes by
the roomId carried in the message; when that roomId is the room the sender
occupies, it delivers the unchanged payload to exactly the other adapter
members of that room, leaving the state unchanged. -/
theorem claim_C4_amended :
    (∀ (st : WsServer.State) (w : Nat) (conn : WsServer.Conn) (p : Payload)
        (room : List String),
        alookup st.connections w = some conn →
        alookup st.rooms conn.roomId = some room →
        ((WsServer.handleOffer st w p).1 = st ∧
          DeliversExactly st.connections conn.roomId conn.userId
            (WsServer.handleOffer st w p).2
            { type := "offer", data := some p, roomId := some conn.roomId }) ∧
        ((WsServer.handleAnswer st w p).1 = st ∧
          DeliversExactly st.connections conn.roomId conn.userId
            (WsServer.handleAnswer st w p).2
            { type := "answer", data := some p, roomId := some conn.roomId }) ∧
        ((WsServer.handleIceCandidate st w p).1 = st ∧
          DeliversExactly st.connections conn.roomId conn.userId
            (WsServer.handleIceCandidate st w p).2
            { type := "ice-candidate", data := some p, roomId := some conn.roomId })) ∧
    (∀ (st : IoServer.State) (sid : Nat) (R : String) (p : Payload) (mem : List Nat),
        ((alookup st.socks sid).getD {}).roomId = some R →
        alookup st.member R = some mem →
        ((IoServer.handleOffer st sid R p).1 = st ∧
          DeliversToMembers mem sid (IoServer.handleOffer st sid R p).2
            { type := "offer", data := some p,
              fromUser := ((alookup st.socks sid).getD {}).userId }) ∧
        ((IoServer.handleAnswer st sid R p).1 = st ∧
          DeliversToMembers mem sid (IoServer.handleAnswer st sid R p).2
            { type := "answer", data := some p,
              fromUser := ((alookup st.socks sid).getD {}).userId }) ∧
        ((IoServer.handleIceCandidate st sid R p).1 = st ∧
          DeliversToMembers mem sid (IoServer.handleIceCandidate st sid R p).2
            { type := "ice-candidate", data := some p,
              fromUser := ((alookup st.socks sid).getD {}).userId })) := by
  constructor
  · intro st w conn p room hconn hroom
    refine ⟨?_, ?_, ?_⟩
    · rw [ws_handleOffer_eq st w p conn hconn]
      exact ⟨rfl, fun q hq => ws_mem_broadcast_msg _ _ _ _ q hq,
        fun w2 => ws_broadcast_mem_iff st conn.roomId _ conn.userId room hroom w2⟩
    · rw [ws_handleAnswer_eq st w p conn hconn]
      exact ⟨rfl, fun q hq => ws_mem_broadcast_msg _ _ _ _ q hq,
        fun w2 => ws_broadcast_mem_iff st conn.roomId _ conn.userId room hroom w2⟩
    · rw [ws_handleIce_eq st w p conn hconn]
      exact ⟨rfl, fun q hq => ws_mem_broadcast_msg _ _ _ _ q hq,
        fun w2 => ws_broadcast_mem_iff st conn.roomId _ conn.userId room hroom w2⟩
  · intro st sid R p mem hsock hmemb
    refine ⟨?_, ?_, ?_⟩
    · rw [io_handleOffer_eq]
      exact ⟨rfl, fun q hq => io_emit_msg _ _ _ _ q hq,
        fun s2 => io_emit_mem_iff st sid R _ mem hmemb s2⟩
    · rw [io_handleAnswer_eq]
      exact ⟨rfl, fun q hq => io_emit_msg _ _ _ _ q hq,
        fun s2 => io_emit_mem_iff st sid R _ mem hmemb s2⟩
    · rw [io_handleIce_eq]
      exact ⟨rfl, fun q hq => io_emit_msg _ _ _ _ q hq,
        fun s2 => io_emit_mem_iff st sid R _ mem hmemb s2⟩

/-- C4, witness: the amended theorem evaluated on a concrete two-room
state for each variant; the offer of user a in R1 reaches the other
occupant of R1 and leaves the state unchanged. -/
theorem claim_C4_witness :
    (WsServer.handleOffer
      ⟨[("R1", ["a", "b"]), ("R2", ["c", "d"])],
       [(0, ⟨"a", "R1"⟩), (1, ⟨"b", "R1"⟩), (2, ⟨"c", "R2"⟩), (3, ⟨"d", "R2"⟩)]⟩
      0 "sdp").1 =
      ⟨[("R1", ["a", "b"]), ("R2", ["c", "d"])],
       [(0, ⟨"a", "R1"⟩), (1, ⟨"b", "R1"⟩), (2, ⟨"c", "R2"⟩), (3, ⟨"d", "R2"⟩)]⟩ ∧
    (∃ m, (1, m) ∈ (WsServer.handleOffer
      ⟨[("R1", ["a", "b"]), ("R2", ["c", "d"])],
       [(0, ⟨"a", "R1"⟩), (1, ⟨"b", "R1"⟩), (2, ⟨"c", "R2"⟩), (3, ⟨"d", "R2"⟩)]⟩
      0 "sdp").2) ∧
    (IoServer.handleAnswer
      ⟨[("R1", [1, 2])], [("R1", [1, 2])],
       [(1, ⟨some "a", some "R1"⟩), (2, ⟨some "b", some "R1"⟩)]⟩ 1 "R1" "sdp2").1 =
      ⟨[("R1", [1, 2])], [("R1", [1, 2])],
       [(1, ⟨some "a", some "R1"⟩), (2, ⟨some "b", some "R1"⟩)]⟩ :=
  ⟨((claim_C4_amended.1 _ 0 ⟨"a", "R1"⟩ "sdp" ["a", "b"] (by decide) (by decide)).1).1,
   (((claim_C4_amended.1 _ 0 ⟨"a", "R1"⟩ "sdp" ["a", "b"] (by decide)
       (by decide)).1).2.2 1).mpr ⟨⟨"b", "R1"⟩, by decide, by decide, by decide⟩,
   ((claim_C4_amended.2 _ 1 "R1" "sdp2" [1, 2] (by decide) (by decide)).2.1).1⟩

/-- C10: in the ws relay, an offer, answer, ice-candidate or leave-room
message arriving on a connection with no registered room/user association
is silently dropped: nothing is forwarded to anyone, no reply goes back to
the sender, and the whole state — room registry included — is unchanged
(signalingServer.js guards at lines 103-105, 131-134, 145-148 and
159-163). -/
theorem claim_C10 :
    ∀ (st : WsServer.State) (w : Nat) (p : Payload),
      alookup st.connections w = none →
      WsServer.handleOffer st w p = (st, []) ∧
      WsServer.handleAnswer st w p = (st, []) ∧
      WsServer.handleIceCandidate st w p = (st, []) ∧
      WsServer.handleLeaveRoom st w = (st, []) := by
  intro st w p hconn
  refine ⟨?_, ?_, ?_, ws_leave_noconn st w hconn⟩
  · unfold WsServer.handleOffer
    simp [hconn]
  · unfold WsServer.handleAnswer
    simp [hconn]
  · unfold WsServer.handleIceCandidate
    simp [hconn]

/-- C10, witness: a connection that never joined (handle 7) sends an
offer, an answer, a candidate and a leave into a registry holding room R1;
all four are dropped and the state is untouched. -/
theorem claim_C10_witness :
    WsServer.handleOffer ⟨[("R1", ["a"])], [(0, ⟨"a", "R1"⟩)]⟩ 7 "sdp" =
      (⟨[("R1", ["a"])], [(0, ⟨"a", "R1"⟩)]⟩, []) ∧
    WsServer.handleAnswer ⟨[("R1", ["a"])], [(0, ⟨"a", "R1"⟩)]⟩ 7 "sdp" =
      (⟨[("R1", ["a"])], [(0, ⟨"a", "R1"⟩)]⟩, []) ∧
    WsServer.handleIceCandidate ⟨[("R1", ["a"])], [(0, ⟨"a", "R1"⟩)]⟩ 7 "cand" =
      (⟨[("R1", ["a"])], [(0, ⟨"a", "R1"⟩)]⟩, []) ∧
    WsServer.handleLeaveRoom ⟨[("R1", ["a"])], [(0, ⟨"a", "R1"⟩)]⟩ 7 =
      (⟨[("R1", ["a"])], [(0, ⟨"a", "R1"⟩)]⟩, []) := by
  have h := claim_C10 ⟨[("R1", ["a"])], [(0, ⟨"a", "R1"⟩)]⟩ 7 "sdp" (by decide)
  have h2 := claim_C10 ⟨[("R1", ["a"])], [(0, ⟨"a", "R1"⟩)]⟩ 7 "cand" (by decide)
  exact ⟨h.1, h.2.1, h2.2.2.1, h.2.2.2⟩

/-- C2, counterexample to the claim as stated.  A remote ICE candidate
received before the peer connection exists is not queued but dropped
(useWebRTC.ts lines 307-310 log a warning and return), so after the peer
connection is created and the remote description is set by the incoming
offer, the earlier candidate is never applied: the applied list holds only
the candidate that arrived after the remote description was set. -/
theorem claim_C2_cex :
    Client.addIceCandidate ({} : Client.ClientState) "cand1" = ({} : Client.ClientState) ∧
    (Client.addIceCandidate (Client.createAnswer (Client.createPeerConnection
        (Client.addIceCandidate ({} : Client.ClientState) "cand1")) "offerSdp")
      "cand2").peerConnection =
      some { remoteDesc := some "offerSdp", localDesc := some "answer:offerSdp",
             applied := ["cand2"] } := by
  decide

/-- C2, amended: there is no candidate queue.  A remote candidate received
while no peer connection exists is dropped (with a logged warning) and the
state is unchanged; a candidate received while the peer connection exists
but its remote description is not yet set is handed to the platform, whose
rejection is caught and logged, so it is dropped as well; once the remote
description is set, each candidate received is applied immediately, in
arrival order. -/
theorem claim_C2_amended :
    ∀ (st : Client.ClientState) (c : Payload),
      (st.peerConnection = none → Client.addIceCandidate st c = st) ∧
      (∀ pc : Client.PeerConn, st.peerConnection = some pc → pc.remoteDesc = none →
        Client.addIceCandidate st c = st) ∧
      (∀ (pc : Client.PeerConn) (d : Payload), st.peerConnection = some pc →
        pc.remoteDesc = some d →
        Client.addIceCandidate st c =
          { st with peerConnection := some { pc with applied := pc.applied ++ [c] } }) := by
  intro st c
  refine ⟨?_, ?_, ?_⟩
  · intro h
    unfold Client.addIceCandidate
    simp [h]
  · intro pc h1 h2
    unfold Client.addIceCandidate
    simp [h1, h2]
  · intro pc d h1 h2
    unfold Client.addIceCandidate
    simp [h1, h2]

/-- C2, witness: the amended theorem evaluated with no peer connection
(candidate dropped, state unchanged) and with a remote description in
place (candidate appended to the applied list). -/
theorem claim_C2_witness :
    Client.addIceCandidate ({} : Client.ClientState) "c1" = ({} : Client.ClientState) ∧
    Client.addIceCandidate
        { peerConnection := some { remoteDesc := some "o" } } "c1" =
      { peerConnection := some { remoteDesc := some "o", applied := ["c1"] } } := by
  have h1 := (claim_C2_amended ({} : Client.ClientState) "c1").1 rfl
  have h2 := (claim_C2_amended
      ({ peerConnection := some { remoteDesc := some "o" } } : Client.ClientState) "c1").2.2
      { remoteDesc := some "o" } "o" rfl rfl
  exact ⟨h1, by simpa using h2⟩

/-- C3: client-side teardown is idempotent.  For every client state, a
second cleanup returns exactly the state left by the first one and
releases nothing further — no leave frame is sent, no track stopped, no
peer connection closed (effects list empty) — and after the first cleanup
the peer connection, local stream and remote stream refs are all cleared.
The model is a total function, so no invocation throws. -/
theorem claim_C3 :
    ∀ st : Client.ClientState,
      Client.cleanup (Client.cleanup st).1 = ((Client.cleanup st).1, []) ∧
      (Client.cleanup st).1.peerConnection = none ∧
      (Client.cleanup st).1.localStream = none ∧
      (Client.cleanup st).1.remoteStream = none := by
  intro st
  obtain ⟨pc, ls, rs, cr, uid⟩ := st
  cases cr with
  | none => cases ls <;> cases pc <;> simp [Client.cleanup, Client.leaveRoomC]
  | some r =>
    by_cases huid : uid = "" <;> cases ls <;> cases pc <;>
      simp [Client.cleanup, Client.leaveRoomC, huid]

/-- C8: the reconnection episode of the signaling channel client in which
every attempt fails.  Over any number of transport closes from the fresh
state, the delays of the scheduled reconnection attempts are exactly
1000·2^i for i below min(n,5) — doubling from the 1000 ms base, at most 5
attempts — and the number of terminal error frames emitted is n − 5, so
the first five closes emit no error and the sixth close schedules nothing
and emits the single terminal error frame. -/
theorem claim_C8 :
    (∀ n : Nat, Reconnect.scheduledDelays (Reconnect.runCloses n).2 =
      (List.range (min n 5)).map fun i => 1000 * 2 ^ i) ∧
    (∀ n : Nat, Reconnect.errorCount (Reconnect.runCloses n).2 = n - 5) ∧
    (Reconnect.runCloses 6).2 =
      [Reconnect.Action.scheduleConnect 1000, Reconnect.Action.scheduleConnect 2000,
       Reconnect.Action.scheduleConnect 4000, Reconnect.Action.scheduleConnect 8000,
       Reconnect.Action.scheduleConnect 16000,
       Reconnect.Action.emitError "Connexion au serveur perdue"] :=
  ⟨Reconnect.runCloses_delays, Reconnect.runCloses_errors, by decide⟩

/-- C9: getIceServers is total (never throws) and never surfaces a
provider failure: a failed request, a non-ok response and a body with
neither `v.iceServers` nor `iceServers` all yield the hardcoded fallback
list of two public STUN servers, and a successful response yields the
provider entries converted to the standard shape (wrapped urls, truthy
credentials copied, malformed url entries filtered out). -/
theorem claim_C9 :
    (Xirsys.getIceServers none = Xirsys.fallbackServers) ∧
    (∀ r : Xirsys.ProviderResponse, r.ok = false →
      Xirsys.getIceServers (some r) = Xirsys.fallbackServers) ∧
    (∀ r : Xirsys.ProviderResponse, r.vIceServers = none → r.topIceServers = none →
      Xirsys.getIceServers (some r) = Xirsys.fallbackServers) ∧
    (∀ (r : Xirsys.ProviderResponse) (xs : List Xirsys.XirsysIceServer),
      r.ok = true → r.vIceServers = some xs →
      Xirsys.getIceServers (some r) = Xirsys.convert xs) ∧
    (∀ (r : Xirsys.ProviderResponse) (xs : List Xirsys.XirsysIceServer),
      r.ok = true → r.vIceServers = none → r.topIceServers = some xs →
      Xirsys.getIceServers (some r) = Xirsys.convert xs) ∧
    Xirsys.fallbackServers.length = 2 := by
  refine ⟨rfl, ?_, ?_, ?_, ?_, rfl⟩
  · intro r h
    unfold Xirsys.getIceServers
    simp [h]
  · intro r h1 h2
    unfold Xirsys.getIceServers
    cases hok : r.ok <;> simp [hok, h1, h2]
  · intro r xs h1 h2
    unfold Xirsys.getIceServers
    simp [h1, h2]
  · intro r xs h1 h2 h3
    unfold Xirsys.getIceServers
    simp [h1, h2, h3]

/-- C9, witness: the theorem evaluated on a network failure, a non-ok
response, an unexpected body, and a successful response carrying one
relay entry with credentials. -/
theorem claim_C9_witness :
    Xirsys.getIceServers (some ⟨false, none, none⟩) = Xirsys.fallbackServers ∧
    Xirsys.getIceServers (some ⟨true, none, none⟩) = Xirsys.fallbackServers ∧
    Xirsys.getIceServers
        (some ⟨true, some [⟨Xirsys.JsUrls.notArr (some "turn:host"), some "u", some "p"⟩],
          none⟩) =
      Xirsys.convert [⟨Xirsys.JsUrls.notArr (some "turn:host"), some "u", some "p"⟩] :=
  ⟨claim_C9.2.1 ⟨false, none, none⟩ rfl,
   claim_C9.2.2.1 ⟨true, none, none⟩ rfl rfl,
   claim_C9.2.2.2.1 ⟨true, some [⟨Xirsys.JsUrls.notArr (some "turn:host"), some "u", some "p"⟩],
      none⟩ [⟨Xirsys.JsUrls.notArr (some "turn:host"), some "u", some "p"⟩] rfl rfl⟩
